import Mathlib

/-!
Verification development for the contact-record persistence layer of the
Pagina_Personal_Juan_Karold repository.

The repository contains two parallel implementations of the same contact
CRUD module:

* `con_framework/js/contacto/domain/Contacto.js` (domain object with
  `validate`/`toJSON`/`fromJSON`) and
  `con_framework/js/contacto/facade/ContactFacade.js` (the
  `ContactRepository` class backed by a single localStorage blob, and the
  `ContactFacade` mediating form submissions);
* the framework-free variants: the in-memory
  `sin_framework/js/capaAccesoADatos/repositorios/contactoRepository.js`
  and two localStorage-backed `ContactoRepository` variants.

The definitions below are a shallow embedding of that JavaScript code:

* JavaScript strings are Lean `String`s; `trim`/`toLowerCase` become
  `Js.trim`/`Js.toLowerCase` below (faithful on the ASCII data the app
  uses, and chosen over `String.trim`/`String.toLower` so that every
  definition evaluates inside the kernel).
* The localStorage entry under the key `contactos` is modelled by
  `StorageVal`: the key may be absent, may hold a string that fails
  `JSON.parse` (or parses to a non-array), or may hold the serialization of
  a list of plain contact objects.  `JSON.stringify`/`JSON.parse` on the
  well-formed case are modelled as the identity embedding `StorageVal.arr`,
  which is faithful because `stringify` is injective on arrays of the stored
  shape and `parse` inverts it.
* Nondeterministic environment reads (`Date.now()`-based id generation,
  `new Date().toISOString()`) are supplied by an explicit `Env` argument.
* A thrown JavaScript exception is an `Except.error`; every operation also
  returns the storage state it leaves behind, because `handleStorageError`
  can rewrite storage even on a path that ends in a `throw`.
-/

/-- Environment for one repository call: the id `generateId()` would
produce (`contact_` + `Date.now()` + random suffix) and the current
`new Date().toISOString()` timestamp. -/
structure Env where
  freshId : String
  now : String
deriving Repr, DecidableEq

/-- A contact record.  This is both the shape of the `Contacto` domain
object of `con_framework/js/contacto/domain/Contacto.js` and the shape of
the plain objects stored in the localStorage blob (they have exactly the
same ten fields). -/
structure Contacto where
  id : String
  nombre : String
  email : String
  telefono : String
  asunto : String
  mensaje : String
  preferenciaContacto : String
  aceptaTerminos : Bool
  fechaCreacion : String
  fechaActualizacion : String
deriving Repr, DecidableEq, Inhabited

/-- Raw constructor input: a plain data object whose fields may be missing
or empty.  JavaScript's `data.x || default` cannot distinguish a missing
field from `''`/`false`, so both are modelled as the `""`/`false` default. -/
structure ContactData where
  id : String := ""
  nombre : String := ""
  email : String := ""
  telefono : String := ""
  asunto : String := ""
  mensaje : String := ""
  preferenciaContacto : String := ""
  aceptaTerminos : Bool := false
  fechaCreacion : String := ""
  fechaActualizacion : String := ""
deriving Repr, DecidableEq

/-- `s || d` for JavaScript strings: the empty string is falsy. -/
def orDefault (s d : String) : String := if s = "" then d else s

namespace Js

/-- JavaScript `String.prototype.trim()`: drop whitespace from both ends
(implemented over the character list; faithful on the app's data, and
kernel-computable, unlike `String.trim`). -/
def trim (s : String) : String :=
  ⟨((s.data.dropWhile Char.isWhitespace).reverse.dropWhile Char.isWhitespace).reverse⟩

/-- JavaScript `String.prototype.toLowerCase()` (ASCII range, which is all
the app compares). -/
def toLowerCase (s : String) : String := ⟨s.data.map Char.toLower⟩

end Js

namespace Contacto

/-- The `Contacto` constructor (`Contacto.js` lines 6-17): each field is
`data.x || default`, with `generateId()` and `new Date().toISOString()`
supplied by `env` for the id and date defaults. -/
def make (env : Env) (d : ContactData) : Contacto where
  id := orDefault d.id env.freshId
  nombre := d.nombre
  email := d.email
  telefono := d.telefono
  asunto := d.asunto
  mensaje := d.mensaje
  preferenciaContacto := orDefault d.preferenciaContacto "Email"
  aceptaTerminos := d.aceptaTerminos
  fechaCreacion := orDefault d.fechaCreacion env.now
  fechaActualizacion := orDefault d.fechaActualizacion env.now

/-- View a stored plain object as constructor input. -/
def toData (c : Contacto) : ContactData where
  id := c.id
  nombre := c.nombre
  email := c.email
  telefono := c.telefono
  asunto := c.asunto
  mensaje := c.mensaje
  preferenciaContacto := c.preferenciaContacto
  aceptaTerminos := c.aceptaTerminos
  fechaCreacion := c.fechaCreacion
  fechaActualizacion := c.fechaActualizacion

/-- `Contacto.fromJSON(jsonData)` = `new Contacto(jsonData)`
(`Contacto.js` lines 119-121). -/
def fromJSON (env : Env) (c : Contacto) : Contacto := make env c.toData

/-- A character allowed by `[^\s@]` in the email regex. -/
def isEmailChar (c : Char) : Bool := !c.isWhitespace && c != '@'

/-- The test of the regex `/^[^\s@]+@[^\s@]+\.[^\s@]+$/` from
`Contacto.validate` (line 54).  A string matches iff it splits as
`A ++ "@" ++ B ++ "." ++ C` with `A`, `B`, `C` nonempty and free of
whitespace and `@` (so the string holds exactly one `@`, at least one
char before it, and after it a `.` with at least one char on each side).
The split at the `@` is unique, and the `.` condition is: some `.` occurs
in `rest` at an index between 1 and `rest.length - 2`. -/
def emailTest (s : String) : Bool :=
  let cs := s.toList
  match cs.findIdx? (· = '@') with
  | none => false
  | some i =>
    let a := cs.take i
    let rest := cs.drop (i + 1)
    !a.isEmpty && a.all isEmailChar && rest.all isEmailChar &&
      ((rest.drop 1).dropLast.contains '.')

/-- A character allowed by `[\d\s\-\(\)]` in the phone regex. -/
def isPhoneChar (c : Char) : Bool :=
  c.isDigit || c.isWhitespace || c = '-' || c = '(' || c = ')'

/-- The test of the regex `/^[\+]?[\d\s\-\(\)]{7,15}$/` from
`Contacto.validate` (line 62): an optional leading `+` followed by 7 to 15
characters that are digits, whitespace, `-`, `(` or `)`. -/
def phoneTest (s : String) : Bool :=
  let cs := s.toList
  let body := match cs with
    | '+' :: rest => rest
    | _ => cs
  decide (7 ≤ body.length) && decide (body.length ≤ 15) && body.all isPhoneChar

/-- `Contacto.validate()` (`Contacto.js` lines 38-93), reduced to the list
of offending field names in source order (the Spanish messages attached to
each field are irrelevant to the claims). -/
def validate (c : Contacto) : List String :=
  (if (Js.trim c.nombre).length = 0 then ["nombre"]
   else if (Js.trim c.nombre).length < 2 then ["nombre"]
   else if (Js.trim c.nombre).length > 100 then ["nombre"]
   else []) ++
  (if (Js.trim c.email).length = 0 then ["email"]
   else if !emailTest (Js.trim c.email) then ["email"]
   else []) ++
  (if c.telefono != "" && (Js.trim c.telefono).length > 0 && !phoneTest (Js.trim c.telefono)
   then ["telefono"] else []) ++
  (if (Js.trim c.asunto).length = 0 then ["asunto"] else []) ++
  (if c.mensaje != "" && (Js.trim c.mensaje).length > 1000 then ["mensaje"] else []) ++
  (if !c.aceptaTerminos then ["terms"] else []) ++
  (if !(["Email", "Telefono", "WhatsApp"].contains c.preferenciaContacto)
   then ["preferenciaContacto"] else [])

/-- `validation.isValid` from `Contacto.validate()`. -/
def isValid (c : Contacto) : Bool := validate c = []

/-- `Contacto.toJSON()` (`Contacto.js` lines 99-112): the plain object
written to storage.  `nombre`, `telefono` and `mensaje` are trimmed and
`email` is trimmed and lower-cased; `id`, `asunto`, `preferenciaContacto`,
`aceptaTerminos` and both dates are passed through unchanged. -/
def toJSON (c : Contacto) : Contacto :=
  { c with
    nombre := Js.trim c.nombre
    email := Js.toLowerCase (Js.trim c.email)
    telefono := Js.trim c.telefono
    mensaje := Js.trim c.mensaje }

/-- `touch()` (`Contacto.js` lines 30-32). -/
def touch (env : Env) (c : Contacto) : Contacto :=
  { c with fechaActualizacion := env.now }

end Contacto

/-- The localStorage entry under the key `contactos`:
absent, a string on which `JSON.parse` throws (or that parses to a
non-array, making the subsequent `.map` throw), or a well-formed
serialized array of plain contact objects. -/
inductive StorageVal where
  | absent
  | corrupt
  | arr (l : List Contacto)
deriving Repr, DecidableEq

namespace ContactRepository

/-- Result of `ContactRepository.getAll()`: the contacts returned, the
storage state left behind, and whether the `handleStorageError` warning
path ran. -/
structure ReadResult where
  contacts : List Contacto
  store : StorageVal
  warned : Bool
deriving Repr, DecidableEq

/-- `ContactRepository.getAll()` (`ContactFacade.js` lines 614-624): read
the blob, `JSON.parse` it (`null` parses to `null`, hence `|| []` yields
`[]` when the key is absent), and map `Contacto.fromJSON` over the
entries.  On a parse failure the `catch` branch calls
`handleStorageError()` (lines 939-946), which logs a warning and resets
the stored blob to `[]`, and `getAll` returns `[]`. -/
def getAll (env : Env) : StorageVal → ReadResult
  | .absent => ⟨[], .absent, false⟩
  | .corrupt => ⟨[], .arr [], true⟩
  | .arr l => ⟨l.map (Contacto.fromJSON env), .arr l, false⟩

/-- `ContactRepository.getById(id)` (lines 631-639): linear `find` over
`getAll()`. -/
def getById (env : Env) (id : String) (st : StorageVal) :
    Option Contacto × StorageVal :=
  let r := getAll env st
  (r.contacts.find? (fun c => c.id = id), r.store)

/-- `ContactRepository.saveToStorage(contacts)` (lines 924-934): map
`toJSON` over the list and rewrite the whole blob. -/
def saveToStorage (contacts : List Contacto) : StorageVal :=
  .arr (contacts.map Contacto.toJSON)

/-- `ContactRepository.add(contacto)` (lines 668-695): throw if the record
fails validation, throw if a record with the same id already exists,
otherwise push onto `getAll()` and `saveToStorage`. -/
def add (env : Env) (c : Contacto) (st : StorageVal) :
    Except String Unit × StorageVal :=
  if Contacto.validate c ≠ [] then
    (.error "Contacto invalido", st)
  else
    match getById env c.id st with
    | (some _, st₁) => (.error "Ya existe un contacto con el mismo ID", st₁)
    | (none, st₁) =>
      let r := getAll env st₁
      (.ok (), saveToStorage (r.contacts ++ [c]))

/-- `ContactRepository.update(contacto)` (lines 702-732): throw if the
record fails validation, `findIndex` on id, throw when the index is `-1`,
otherwise `touch()` the record, replace it at the found index and
`saveToStorage`. -/
def update (env : Env) (c : Contacto) (st : StorageVal) :
    Except String Unit × StorageVal :=
  if Contacto.validate c ≠ [] then
    (.error "Contacto invalido", st)
  else
    let r := getAll env st
    match r.contacts.findIdx? (fun x => x.id = c.id) with
    | none => (.error "Contacto no encontrado", r.store)
    | some i => (.ok (), saveToStorage (r.contacts.set i (Contacto.touch env c)))

/-- `ContactRepository.remove(id)` (lines 739-758): `findIndex` on id,
throw when the index is `-1`, otherwise `splice` the record out and
`saveToStorage`. -/
def remove (env : Env) (id : String) (st : StorageVal) :
    Except String Unit × StorageVal :=
  let r := getAll env st
  match r.contacts.findIdx? (fun x => x.id = id) with
  | none => (.error "Contacto no encontrado", r.store)
  | some i => (.ok (), saveToStorage (r.contacts.eraseIdx i))

/-- `ContactRepository.clear()` (lines 764-774): unconditionally rewrite
the blob with `JSON.stringify([])` (the preceding `getAll().length` read,
used only for the log message, can itself reset a corrupt blob, but the
final state is `[]` either way). -/
def clear (_st : StorageVal) : Except String Unit × StorageVal :=
  ((.ok (), .arr []))

/-- `ContactRepository.existsByEmail(email, excludeId)` (lines 795-806):
case-insensitive linear scan over `getAll()`, skipping `excludeId`. -/
def existsByEmail (env : Env) (email : String) (excludeId : Option String)
    (st : StorageVal) : Bool × StorageVal :=
  let r := getAll env st
  (r.contacts.any (fun c =>
      Js.toLowerCase c.email = Js.toLowerCase email &&
        (match excludeId with
         | none => true
         | some ex => c.id != ex)),
   r.store)

/-- `ContactRepository.exportToJSON()` (lines 856-864): the array of plain
objects whose `JSON.stringify` is the exported string. -/
def exportToJSON (env : Env) (st : StorageVal) :
    List Contacto × StorageVal :=
  let r := getAll env st
  (r.contacts.map Contacto.toJSON, r.store)

/-- The `{imported, skipped, errors, total}` result of
`ContactRepository.importFromJSON` (the `errors` array is reduced to its
length). -/
structure ImportResult where
  imported : Nat
  skipped : Nat
  errors : Nat
  total : Nat
deriving Repr, DecidableEq

/-- One iteration of the `data.forEach` loop of `importFromJSON`
(lines 883-904), acting on the accumulator
`(currentContacts, imported, skipped, errors)`.  Note that the duplicate
check `this.getById(contacto.id)` reads the *stored* blob `st₁`, not the
in-memory `currentContacts` being built. -/
def importStep (env : Env) (st₁ : StorageVal)
    (acc : List Contacto × Nat × Nat × Nat) (d : Contacto) :
    List Contacto × Nat × Nat × Nat :=
  let c := Contacto.fromJSON env d
  if Contacto.validate c ≠ [] then
    (acc.1, acc.2.1, acc.2.2.1, acc.2.2.2 + 1)
  else if ((getById env c.id st₁).1).isSome then
    (acc.1, acc.2.1, acc.2.2.1 + 1, acc.2.2.2)
  else
    (acc.1 ++ [c], acc.2.1 + 1, acc.2.2.1, acc.2.2.2)

/-- `ContactRepository.importFromJSON(jsonString)` (lines 871-918), taking
the already-parsed JSON array (the `JSON.parse` / `Array.isArray` guard is
outside the modelled data path): start from `getAll()`, run the
`forEach` loop, and `saveToStorage` the accumulated list. -/
def importFromJSON (env : Env) (batch : List Contacto) (st : StorageVal) :
    ImportResult × StorageVal :=
  let r := getAll env st
  let out := batch.foldl (importStep env r.store) (r.contacts, 0, 0, 0)
  (⟨out.2.1, out.2.2.1, out.2.2.2, batch.length⟩, saveToStorage out.1)

end ContactRepository

namespace ContactFacade

/-- `ContactFacade.validateForm(data)` (`ContactFacade.js` lines 222-230):
build a temporary `Contacto` from the form data and run its `validate`. -/
def validateForm (env : Env) (d : ContactData) : List String :=
  Contacto.validate (Contacto.make env d)

/-- `ContactFacade.guardarContacto(datosFormulario)` (lines 94-122): throw
if `validateForm` reports errors, build the `Contacto`, throw if
`existsByEmail` finds the (case-insensitively) same email, otherwise
delegate to `ContactRepository.add`.  (In the source the temporary
contact of `validateForm` and the added contact come from two separate
`new Contacto(data)` calls whose generated ids differ; `validate` never
reads the id, so a single `env` is faithful.) -/
def guardarContacto (env : Env) (d : ContactData) (st : StorageVal) :
    Except String Unit × StorageVal :=
  if validateForm env d ≠ [] then
    (.error "Por favor corrija los errores en el formulario", st)
  else
    let c := Contacto.make env d
    match ContactRepository.existsByEmail env c.email none st with
    | (true, st₁) => (.error "Ya existe un contacto con ese correo electronico", st₁)
    | (false, st₁) => ContactRepository.add env c st₁

end ContactFacade

namespace ContactoRepositoryMem

/-- `ContactoRepository.clear()` of the in-memory variant
(`sin_framework/js/capaAccesoADatos/repositorios/contactoRepository.js`
lines 24-26): the body is `this.repo.clear()`, but JavaScript arrays have
no `clear` method, so the call throws
`TypeError: this.repo.clear is not a function` and the collection is not
emptied. -/
def clear (_repo : List Contacto) : Except String (List Contacto) :=
  .error "TypeError: this.repo.clear is not a function"

end ContactoRepositoryMem

namespace ContactoRepositoryLS

/-- State of the localStorage-backed `ContactoRepository` variants
(`src/unnamed/part_000` and `src/unnamed/part_001`): the `contactos`
localStorage entry (`none` = key absent) and the in-memory `this.repo`
cache field. -/
structure LSState where
  storage : Option (List Contacto)
  repo : List Contacto
deriving Repr, DecidableEq

/-- `cargarAlmacenamiento()`: `this.repo = datos ? JSON.parse(datos) : []`. -/
def cargarAlmacenamiento (s : LSState) : LSState :=
  { s with repo := s.storage.getD [] }

/-- `guardarAlmacenamiento()`: `localStorage.setItem(..., JSON.stringify(this.repo))`. -/
def guardarAlmacenamiento (s : LSState) : LSState :=
  { s with storage := some s.repo }

/-- `indiceElemento(id)` run over an already-loaded list: first index whose
`id` matches (part_001 compares `String(a) === String(b)`, part_000 uses
`===`; both coincide with string equality here), `-1` when absent. -/
def indiceElemento (l : List Contacto) (id : String) : Int :=
  match l.findIdx? (fun c => c.id = id) with
  | some i => (i : Int)
  | none => -1

/-- `getAll()` of the localStorage variants: reload from storage, then
return `this.repo`. -/
def getAll (s : LSState) : List Contacto × LSState :=
  let s₁ := cargarAlmacenamiento s
  (s₁.repo, s₁)

/-- `add(contacto)` of the localStorage variants: reload, push, save —
with no validation and no duplicate check of any kind. -/
def add (c : Contacto) (s : LSState) : LSState :=
  let l := s.storage.getD []
  ⟨some (l ++ [c]), l ++ [c]⟩

/-- `clear()` of the localStorage variants (part_000 lines 51-54,
part_001 lines 53-56): `this.repo = []` then save. -/
def clear (_s : LSState) : LSState :=
  ⟨some [], []⟩

end ContactoRepositoryLS

namespace Part001

open ContactoRepositoryLS

/-- `ContactoRepository.update(contacto)` of `src/unnamed/part_001`
(lines 32-42): reload, find the index, and only when
`indiceActualizar > 0` — a check that treats the record at index 0 as
not found — overwrite `contacto.fechaCreacion` with the stored record's
creation date, replace the record at that index and save, returning
`true`; otherwise return `false`. -/
def update (c : Contacto) (s : LSState) : Bool × LSState :=
  let l := s.storage.getD []
  let i := indiceElemento l c.id
  if 0 < i then
    let c' := { c with fechaCreacion := (l.getD i.toNat default).fechaCreacion }
    let l' := l.set i.toNat c'
    (true, ⟨some l', l'⟩)
  else
    (false, { s with repo := l })

/-- `ContactoRepository.remove(id)` of `src/unnamed/part_001`
(lines 43-52): reload, find the index, and when it is not `-1` splice the
record out and save, returning `true`; otherwise return `false`. -/
def remove (id : String) (s : LSState) : Bool × LSState :=
  let l := s.storage.getD []
  let i := indiceElemento l id
  if i ≠ -1 then
    let l' := l.eraseIdx i.toNat
    (true, ⟨some l', l'⟩)
  else
    (false, { s with repo := l })

end Part001

namespace Part000

open ContactoRepositoryLS

/-- `ContactoRepository.update(contacto)` of `src/unnamed/part_000`
(lines 31-40): `if((indice = this.indiceElemento(contacto.id)) > 0)` —
the parenthesised assignment yields the index, so the guard is again
`index > 0`, skipping index 0; on success the stored record's
`fechaCreacion` is copied into the replacement before saving.
Semantically identical to `Part001.update`. -/
def update (c : Contacto) (s : LSState) : Bool × LSState :=
  let l := s.storage.getD []
  let i := indiceElemento l c.id
  if 0 < i then
    let c' := { c with fechaCreacion := (l.getD i.toNat default).fechaCreacion }
    let l' := l.set i.toNat c'
    (true, ⟨some l', l'⟩)
  else
    (false, { s with repo := l })

/-- `ContactoRepository.remove(id)` of `src/unnamed/part_000`
(lines 41-49): `if((indice = this.indiceElemento(id) > 0))` binds `indice`
to the *boolean* `index > 0`.  When the record is found at an index ≥ 1
the guard is `true` and `splice(indice, 1)` coerces `true` to `1`, so the
record at index 1 is removed (whatever was looked up); when the record is
at index 0 or absent, nothing is removed and `false` is returned. -/
def remove (id : String) (s : LSState) : Bool × LSState :=
  let l := s.storage.getD []
  let indice := decide (0 < indiceElemento l id)
  if indice then
    let l' := l.eraseIdx 1
    (true, ⟨some l', l'⟩)
  else
    (false, { s with repo := l })

end Part000

/-!
## Operation sequences over the con_framework repository

Used to state the identifier-uniqueness invariant: one constructor per
repository operation of `ContactRepository` (`add`, `update`, `remove`,
`clear`, `importFromJSON`), each carrying the environment of that call.
-/

/-- One repository operation. -/
inductive Op where
  | add (env : Env) (c : Contacto)
  | update (env : Env) (c : Contacto)
  | remove (env : Env) (id : String)
  | clear
  | imp (env : Env) (batch : List Contacto)
deriving Repr

/-- Execute one operation, keeping the storage state it leaves behind
(also on the paths that throw). -/
def Op.exec (st : StorageVal) : Op → StorageVal
  | .add env c => (ContactRepository.add env c st).2
  | .update env c => (ContactRepository.update env c st).2
  | .remove env id => (ContactRepository.remove env id st).2
  | .clear => (ContactRepository.clear st).2
  | .imp env batch => (ContactRepository.importFromJSON env batch st).2

/-- Run a sequence of operations starting from the empty collection. -/
def runOps (ops : List Op) : StorageVal :=
  ops.foldl Op.exec (.arr [])

/-- Well-formed call: record arguments and batch entries carry nonempty
identifiers (as every id the application produces does — `generateId()`
returns `contact_...`, the sin-framework facade uses `Date.now()`), and
an imported batch repeats no identifier. -/
def Op.wf : Op → Prop
  | .add _ c => c.id ≠ ""
  | .update _ _ => True
  | .remove _ _ => True
  | .clear => True
  | .imp _ batch => (∀ d ∈ batch, d.id ≠ "") ∧ (batch.map Contacto.id).Nodup

instance : DecidablePred Op.wf := fun op => by
  cases op <;> simp only [Op.wf] <;> infer_instance

/-- The record kept (if any) by one `importFromJSON` loop iteration on
entry `d`: the parsed record when it validates and its id is not yet in
the stored blob `st₁`. -/
def importPick (env : Env) (st₁ : StorageVal) (d : Contacto) : Option Contacto :=
  let c := Contacto.fromJSON env d
  if Contacto.validate c ≠ [] then none
  else if ((ContactRepository.getById env c.id st₁).1).isSome then none
  else some c

/-- The stored blob is a well-formed array whose records carry pairwise
distinct, nonempty identifiers. -/
def GoodStore (st : StorageVal) : Prop :=
  ∃ l, st = .arr l ∧ (l.map Contacto.id).Nodup ∧ "" ∉ l.map Contacto.id

/-- A stored record in the exact shape `saveToStorage` writes and the
constructor reads back unchanged: the trimmed/lower-cased fields are
fixed by their normalization and no field that the constructor defaults
is empty. -/
def Contacto.Normalized (c : Contacto) : Prop :=
  Js.trim c.nombre = c.nombre ∧ Js.toLowerCase (Js.trim c.email) = c.email ∧
  Js.trim c.telefono = c.telefono ∧ Js.trim c.mensaje = c.mensaje ∧
  c.id ≠ "" ∧ c.preferenciaContacto ≠ "" ∧
  c.fechaCreacion ≠ "" ∧ c.fechaActualizacion ≠ ""

instance (c : Contacto) : Decidable c.Normalized := by
  unfold Contacto.Normalized
  infer_instance

/-!
## Concrete sample data

Used by the counterexamples and witnesses. -/

/-- A sample environment. -/
def envA : Env := ⟨"contact_1700000000000_abc123def", "2024-01-01T00:00:00.000Z"⟩

/-- A later environment (for update calls). -/
def envB : Env := ⟨"contact_1700000000999_zzz999zzz", "2024-01-02T00:00:00.000Z"⟩

/-- The §8 example form submission, with a leading space in `asunto`. -/
def dAna : ContactData :=
  { nombre := "Ana Ruiz", email := "Ana@X.com", asunto := " consulta",
    preferenciaContacto := "Email", aceptaTerminos := true }

/-- A valid, normalized stored record. -/
def cAna : Contacto :=
  ⟨"a1", "Ana Ruiz", "ana@x.com", "", "consulta", "", "Email", true,
   "2024-01-01T00:00:00.000Z", "2024-01-01T00:00:00.000Z"⟩

/-- A second valid, normalized stored record. -/
def cBea : Contacto :=
  ⟨"b1", "Bea Lopez", "bea@x.com", "", "consulta", "", "Email", true,
   "2024-01-01T00:00:00.000Z", "2024-01-01T00:00:00.000Z"⟩

/-- A third valid, normalized stored record. -/
def cCarl : Contacto :=
  ⟨"c1", "Carl Soto", "carl@x.com", "", "consulta", "", "Email", true,
   "2024-01-01T00:00:00.000Z", "2024-01-01T00:00:00.000Z"⟩

/-- `cAna` resubmitted with a changed message (same id). -/
def cAnaMod : Contacto := { cAna with mensaje := "hola de nuevo" }

/-!
## Helper lemmas
-/

theorem ContactRepository.getAll_store (env : Env) (st : StorageVal) :
    ContactRepository.getAll env (ContactRepository.getAll env st).store =
      { contacts := (ContactRepository.getAll env st).contacts,
        store := (ContactRepository.getAll env st).store, warned := false } := by
  cases st <;> rfl

theorem orDefault_of_ne (s d : String) (h : s ≠ "") : orDefault s d = s :=
  if_neg h

theorem Contacto.fromJSON_id (env : Env) (c : Contacto) :
    (Contacto.fromJSON env c).id = orDefault c.id env.freshId := rfl

theorem Contacto.toJSON_id (c : Contacto) : (Contacto.toJSON c).id = c.id := rfl

/-- Shared computation of the successful insert path: when the candidate
validates, no stored record matches its email case-insensitively, and no
stored record carries its id, `guardarContacto` returns `true` and
rewrites the blob with the whole collection plus the new record. -/
theorem ContactFacade.guardarContacto_success (env : Env) (d : ContactData)
    (st : StorageVal)
    (hv : Contacto.validate (Contacto.make env d) = [])
    (hany : (ContactRepository.getAll env st).contacts.any
      (fun x => Js.toLowerCase x.email =
        Js.toLowerCase (Contacto.make env d).email) = false)
    (hfresh : ∀ r ∈ (ContactRepository.getAll env st).contacts,
      r.id ≠ (Contacto.make env d).id) :
    ContactFacade.guardarContacto env d st =
      (.ok (), ContactRepository.saveToStorage
        ((ContactRepository.getAll env st).contacts ++ [Contacto.make env d])) := by
  simp only [ContactFacade.guardarContacto, ContactFacade.validateForm]
  rw [if_neg (by simp [hv])]
  have hex : ContactRepository.existsByEmail env
      (Contacto.make env d).email none st =
      (false, (ContactRepository.getAll env st).store) := by
    simp only [ContactRepository.existsByEmail, Bool.and_true]
    exact congrArg (fun b => (b, (ContactRepository.getAll env st).store)) hany
  rw [hex]
  simp only [ContactRepository.add]
  rw [if_neg (by simp [hv])]
  have hfind : ((ContactRepository.getAll env st).contacts.find?
        (fun c => c.id = (Contacto.make env d).id)) = none :=
    List.find?_eq_none.mpr (fun x hx => by simpa using hfresh x hx)
  simp only [ContactRepository.getById, ContactRepository.getAll_store, hfind]

/-!
## Claim theorems
-/

/-- C9: when the stored blob fails to deserialize, `getAll` resets the
stored collection to empty, logs a warning (the `warned` flag), and
returns an empty collection; no error propagates (the function returns a
`ReadResult`, it does not throw) and the corrupted data is discarded, not
recovered. -/
theorem C9_getAll_corrupt_resets_and_warns (env : Env) :
    ContactRepository.getAll env .corrupt =
      { contacts := [], store := .arr [], warned := true } := rfl

/-- C6: `getAll` deserializes the currently stored blob on every call —
its result is a function of the current blob alone (for the
localStorage-backed `ContactoRepository` variants, the result is
independent of the in-memory `repo` field that a previous read cached) —
and yields an empty collection when no blob exists yet. -/
theorem C6_getAll_reads_current_blob (env : Env) (l : List Contacto)
    (stg : Option (List Contacto)) (cache : List Contacto) :
    (ContactRepository.getAll env (.arr l)).contacts = l.map (Contacto.fromJSON env) ∧
    (ContactRepository.getAll env .absent).contacts = [] ∧
    (ContactoRepositoryLS.getAll ⟨stg, cache⟩).1 = stg.getD [] ∧
    (ContactoRepositoryLS.getAll ⟨none, cache⟩).1 = [] :=
  ⟨rfl, rfl, rfl, by cases stg <;> rfl⟩

/-- C5: in the localStorage-backed variant, `clear()` unconditionally
replaces the stored collection with an empty one and is idempotent — but
the in-memory sin_framework variant's `clear()` body is
`this.repo.clear()`, which throws a `TypeError` (arrays have no `clear`
method) and empties nothing. -/
theorem C5_clear_eval :
    ContactoRepositoryMem.clear [cAna] =
      .error "TypeError: this.repo.clear is not a function" ∧
    ContactoRepositoryLS.clear ⟨some [cAna], [cAna]⟩ = ⟨some [], []⟩ ∧
    ContactoRepositoryLS.clear (ContactoRepositoryLS.clear ⟨some [cAna], [cAna]⟩) =
      ⟨some [], []⟩ :=
  ⟨rfl, rfl, rfl⟩

/-- C3: evaluating the `src/unnamed/part_001` `update` at a record stored
at index 0: `indiceElemento` returns `0`, the guard `indiceActualizar > 0`
fails, so `update` returns `false` and the stored collection is unchanged —
while the con_framework `ContactRepository.update` (which checks
`index === -1`) succeeds on the same situation. -/
theorem C3_update_index_zero_eval :
    Part001.update cAnaMod ⟨some [cAna], []⟩ = (false, ⟨some [cAna], [cAna]⟩) ∧
    Part000.update cAnaMod ⟨some [cAna], []⟩ = (false, ⟨some [cAna], [cAna]⟩) ∧
    (ContactRepository.update envB cAnaMod (.arr [cAna])).1 = .ok () :=
  ⟨by decide, by decide, rfl⟩

/-- C4: evaluating the `src/unnamed/part_000` `remove`: with the
collection `[cAna, cBea, cCarl]`, removing `"c1"` (found at index 2)
splices at index `true`, i.e. `1`, deleting `cBea` instead of `cCarl`
while reporting success, and removing `"a1"` (found at index 0) deletes
nothing and reports failure — while the con_framework
`ContactRepository.remove` removes exactly the matching record at
index 0. -/
theorem C4_remove_eval :
    Part000.remove "c1" ⟨some [cAna, cBea, cCarl], []⟩ =
      (true, ⟨some [cAna, cCarl], [cAna, cCarl]⟩) ∧
    Part000.remove "a1" ⟨some [cAna, cBea, cCarl], []⟩ =
      (false, ⟨some [cAna, cBea, cCarl], [cAna, cBea, cCarl]⟩) ∧
    (ContactRepository.remove envA "a1" (.arr [cAna, cBea, cCarl])).2 =
      .arr [cBea, cCarl] :=
  ⟨by decide, by decide, by decide⟩

/-- C2 counterexample: the §8 form submission with `asunto = " consulta"`
is valid and accepted, but the stored record keeps the leading space:
the `asunto` text field is *not* trimmed by `toJSON`, refuting "the text
fields are trimmed" as stated. -/
theorem C2_counterexample :
    (ContactFacade.guardarContacto envA dAna (.arr [])).1 = .ok () ∧
    ((ContactRepository.getAll envA
        (ContactFacade.guardarContacto envA dAna (.arr [])).2).contacts.map
      Contacto.asunto) = [" consulta"] ∧
    Js.trim " consulta" ≠ " consulta" :=
  ⟨rfl, by decide, by decide⟩

/-- C1: for every candidate form submission, the insert path
(`ContactFacade.guardarContacto`, which performs the email check and
delegates to `ContactRepository.add`) rejects with the stored collection
unchanged when the candidate record fails validation, rejects with the
stored collection unchanged when a record with the same email (compared
case-insensitively) already exists, and otherwise — the generated id
being fresh — appends the record and re-serializes the entire
collection. -/
theorem C1_guardarContacto_rejects_or_appends (env : Env) (d : ContactData)
    (st : StorageVal) :
    (Contacto.validate (Contacto.make env d) ≠ [] →
      ContactFacade.guardarContacto env d st =
        (.error "Por favor corrija los errores en el formulario", st)) ∧
    (Contacto.validate (Contacto.make env d) = [] →
     (ContactRepository.getAll env st).contacts.any
        (fun x => Js.toLowerCase x.email =
          Js.toLowerCase (Contacto.make env d).email) = true →
      ContactFacade.guardarContacto env d st =
        (.error "Ya existe un contacto con ese correo electronico", st)) ∧
    (Contacto.validate (Contacto.make env d) = [] →
     (ContactRepository.getAll env st).contacts.any
        (fun x => Js.toLowerCase x.email =
          Js.toLowerCase (Contacto.make env d).email) = false →
     (∀ r ∈ (ContactRepository.getAll env st).contacts,
        r.id ≠ (Contacto.make env d).id) →
      ContactFacade.guardarContacto env d st =
        (.ok (), ContactRepository.saveToStorage
          ((ContactRepository.getAll env st).contacts ++ [Contacto.make env d]))) := by
  refine ⟨?_, ?_, ?_⟩
  · intro h
    simp only [ContactFacade.guardarContacto, ContactFacade.validateForm]
    rw [if_pos h]
  · intro hv hany
    cases st with
    | absent => simp [ContactRepository.getAll] at hany
    | corrupt => simp [ContactRepository.getAll] at hany
    | arr l =>
      simp only [ContactFacade.guardarContacto, ContactFacade.validateForm]
      rw [if_neg (by simp [hv])]
      have hex : ContactRepository.existsByEmail env
          (Contacto.make env d).email none (.arr l) = (true, .arr l) := by
        simp only [ContactRepository.existsByEmail, ContactRepository.getAll,
          bne_iff_ne, Bool.and_true]
        exact congrArg (fun b => (b, StorageVal.arr l)) hany
      rw [hex]
  · exact fun hv hany hfresh =>
      ContactFacade.guardarContacto_success env d st hv hany hfresh

/-- C1 witness: the §8 example submission on the empty collection is
appended and the whole collection re-serialized. -/
theorem C1_witness :
    ContactFacade.guardarContacto envA dAna (.arr []) =
      (.ok (), ContactRepository.saveToStorage
        ((ContactRepository.getAll envA (.arr [])).contacts ++
          [Contacto.make envA dAna])) :=
  (C1_guardarContacto_rejects_or_appends envA dAna (.arr [])).2.2
    (by decide) (by decide) (by decide)

/-- C2 (amended): for every valid candidate whose generated id is fresh
and nonempty, against a well-formed stored collection, `add` followed by
`getAll` yields exactly one record with the candidate's id; in that
stored record the email is trimmed and lower-cased and the `nombre`,
`telefono` and `mensaje` text fields are trimmed, while `asunto` is
stored exactly as submitted (`toJSON` does not trim it). -/
theorem C2_add_getAll_normalizes (env env₂ : Env) (d : ContactData)
    (l : List Contacto)
    (hv : Contacto.validate (Contacto.make env d) = [])
    (hany : (ContactRepository.getAll env (.arr l)).contacts.any
      (fun x => Js.toLowerCase x.email =
        Js.toLowerCase (Contacto.make env d).email) = false)
    (hfresh : ∀ r ∈ l, r.id ≠ (Contacto.make env d).id)
    (hid : (Contacto.make env d).id ≠ "")
    (hids : ∀ r ∈ l, r.id ≠ "") :
    (ContactFacade.guardarContacto env d (.arr l)).1 = .ok () ∧
    ((ContactRepository.getAll env₂
        (ContactFacade.guardarContacto env d (.arr l)).2).contacts.filter
      (fun r => r.id = (Contacto.make env d).id))
      = [Contacto.fromJSON env₂ (Contacto.toJSON (Contacto.make env d))] ∧
    (Contacto.fromJSON env₂ (Contacto.toJSON (Contacto.make env d))).id
      = (Contacto.make env d).id ∧
    (Contacto.fromJSON env₂ (Contacto.toJSON (Contacto.make env d))).email
      = Js.toLowerCase (Js.trim d.email) ∧
    (Contacto.fromJSON env₂ (Contacto.toJSON (Contacto.make env d))).nombre
      = Js.trim d.nombre ∧
    (Contacto.fromJSON env₂ (Contacto.toJSON (Contacto.make env d))).telefono
      = Js.trim d.telefono ∧
    (Contacto.fromJSON env₂ (Contacto.toJSON (Contacto.make env d))).mensaje
      = Js.trim d.mensaje ∧
    (Contacto.fromJSON env₂ (Contacto.toJSON (Contacto.make env d))).asunto
      = d.asunto := by
  have hfresh' : ∀ r ∈ (ContactRepository.getAll env (.arr l)).contacts,
      r.id ≠ (Contacto.make env d).id := by
    intro r hr
    simp only [ContactRepository.getAll, List.mem_map] at hr
    obtain ⟨x, hx, rfl⟩ := hr
    rw [Contacto.fromJSON_id, orDefault_of_ne _ _ (hids x hx)]
    exact hfresh x hx
  have hsucc := ContactFacade.guardarContacto_success env d (.arr l) hv hany hfresh'
  rw [hsucc]
  refine ⟨rfl, ?_, ?_, rfl, rfl, rfl, rfl, rfl⟩
  · simp only [ContactRepository.saveToStorage, ContactRepository.getAll,
      List.map_append, List.map_map, List.filter_append]
    have hold : ((l.map
        (Contacto.fromJSON env₂ ∘ Contacto.toJSON ∘ Contacto.fromJSON env)).filter
          (fun r => r.id = (Contacto.make env d).id)) = [] := by
      rw [List.filter_eq_nil_iff]
      intro r hr
      obtain ⟨x, hx, rfl⟩ := List.mem_map.mp hr
      simp only [Function.comp_apply, decide_eq_true_eq]
      rw [Contacto.fromJSON_id, Contacto.toJSON_id, Contacto.fromJSON_id,
        orDefault_of_ne _ _ (hids x hx), orDefault_of_ne _ _ (hids x hx)]
      exact hfresh x hx
    rw [hold, List.nil_append]
    have hkeep : (Contacto.fromJSON env₂
        (Contacto.toJSON (Contacto.make env d))).id = (Contacto.make env d).id := by
      rw [Contacto.fromJSON_id, Contacto.toJSON_id, orDefault_of_ne _ _ hid]
    simp [List.filter_cons, hkeep]
  · rw [Contacto.fromJSON_id, Contacto.toJSON_id, orDefault_of_ne _ _ hid]

/-- C2 witness: the §8 example submission on the empty collection — the
stored record keeps the generated id, the lower-cased trimmed email and
the untrimmed `asunto`. -/
theorem C2_witness :
    Contacto.validate (Contacto.make envA dAna) = [] ∧
    (ContactFacade.guardarContacto envA dAna (.arr [])).1 = .ok () ∧
    ((ContactRepository.getAll envB
        (ContactFacade.guardarContacto envA dAna (.arr [])).2).contacts.filter
      (fun r => r.id = (Contacto.make envA dAna).id))
      = [Contacto.fromJSON envB (Contacto.toJSON (Contacto.make envA dAna))] :=
  ⟨by decide,
   (C2_add_getAll_normalizes envA envB dAna [] (by decide) (by decide)
      (by decide) (by decide) (by decide)).1,
   (C2_add_getAll_normalizes envA envB dAna [] (by decide) (by decide)
      (by decide) (by decide) (by decide)).2.1⟩

theorem Contacto.fromJSON_of_normalized (env : Env) (c : Contacto)
    (h : c.Normalized) : Contacto.fromJSON env c = c := by
  obtain ⟨-, -, -, -, h5, h6, h7, h8⟩ := h
  simp only [Contacto.fromJSON, Contacto.make, Contacto.toData,
    orDefault_of_ne _ _ h5, orDefault_of_ne _ _ h6, orDefault_of_ne _ _ h7,
    orDefault_of_ne _ _ h8]

theorem Contacto.toJSON_of_normalized (c : Contacto)
    (h : c.Normalized) : Contacto.toJSON c = c := by
  obtain ⟨h1, h2, h3, h4, -, -, -, -⟩ := h
  simp only [Contacto.toJSON, h1, h2, h3, h4]

theorem List.map_id_of_mem {α : Type} (l : List α) (f : α → α)
    (h : ∀ a ∈ l, f a = a) : l.map f = l := by
  induction l with
  | nil => rfl
  | cons a rest ih =>
    simp only [List.map_cons, h a (List.mem_cons_self a rest),
      ih (fun x hx => h x (List.mem_cons_of_mem _ hx))]

/-- The `importFromJSON` loop against an empty stored blob: every entry
that validates is appended in order (nothing can be skipped as a
duplicate, because `getById` consults the empty blob). -/
theorem ContactRepository.importStep_foldl_empty (env : Env)
    (batch : List Contacto) (init : List Contacto) (a b k : Nat)
    (h : ∀ d ∈ batch, Contacto.validate (Contacto.fromJSON env d) = []) :
    batch.foldl (ContactRepository.importStep env (.arr [])) (init, a, b, k) =
      (init ++ batch.map (Contacto.fromJSON env), a + batch.length, b, k) := by
  induction batch generalizing init a with
  | nil => simp
  | cons d rest ih =>
    have hd := h d (List.mem_cons_self d rest)
    have hstep : ContactRepository.importStep env (.arr []) (init, a, b, k) d =
        (init ++ [Contacto.fromJSON env d], a + 1, b, k) := by
      simp [ContactRepository.importStep, hd, ContactRepository.getById,
        ContactRepository.getAll]
    rw [List.foldl_cons, hstep,
      ih _ _ (fun x hx => h x (List.mem_cons_of_mem _ hx))]
    simp [List.append_assoc]
    omega

/-- C8: exporting a collection of valid stored records (records in the
shape `saveToStorage` writes) and re-importing the export into an empty
collection restores exactly the original collection — every record is
imported, none is skipped as a duplicate and none errors. -/
theorem C8_export_import_roundtrip (env₁ env₂ : Env) (l : List Contacto)
    (h : ∀ r ∈ l, Contacto.Normalized r ∧ Contacto.validate r = []) :
    ContactRepository.importFromJSON env₂
        (ContactRepository.exportToJSON env₁ (.arr l)).1 (.arr []) =
      ({ imported := l.length, skipped := 0, errors := 0, total := l.length },
       .arr l) := by
  have hexp : (ContactRepository.exportToJSON env₁ (.arr l)).1 = l := by
    show ((l.map (Contacto.fromJSON env₁)).map Contacto.toJSON) = l
    rw [List.map_map]
    exact List.map_id_of_mem l _ (fun r hr => by
      rw [Function.comp_apply, Contacto.fromJSON_of_normalized env₁ r (h r hr).1,
        Contacto.toJSON_of_normalized r (h r hr).1])
  rw [hexp]
  have hmap : l.map (Contacto.fromJSON env₂) = l :=
    List.map_id_of_mem l _ (fun r hr =>
      Contacto.fromJSON_of_normalized env₂ r (h r hr).1)
  have hv : ∀ d ∈ l, Contacto.validate (Contacto.fromJSON env₂ d) = [] :=
    fun d hd => by
      rw [Contacto.fromJSON_of_normalized env₂ d (h d hd).1]
      exact (h d hd).2
  simp only [ContactRepository.importFromJSON, ContactRepository.getAll,
    List.map_nil]
  rw [ContactRepository.importStep_foldl_empty env₂ l [] 0 0 0 hv]
  simp only [List.nil_append, Nat.zero_add, ContactRepository.saveToStorage, hmap]
  rw [List.map_id_of_mem l _ (fun r hr =>
    Contacto.toJSON_of_normalized r (h r hr).1)]

/-- C8 witness: the two-record collection `[cAna, cBea]` survives the
export/import round-trip unchanged. -/
theorem C8_witness :
    (∀ r ∈ [cAna, cBea], Contacto.Normalized r ∧ Contacto.validate r = []) ∧
    ContactRepository.importFromJSON envB
        (ContactRepository.exportToJSON envA (.arr [cAna, cBea])).1 (.arr []) =
      ({ imported := 2, skipped := 0, errors := 0, total := 2 },
       .arr [cAna, cBea]) :=
  ⟨by decide, C8_export_import_roundtrip envA envB [cAna, cBea] (by decide)⟩

/-- C10: for a successful update (record found at index `i`): the
localStorage-backed sin-framework `update` replaces only the record at
`i`, overwriting the caller's `fechaCreacion` with the stored record's
original one (so the creation timestamp survives updates), and part_000's
and part_001's `update` bodies agree; every record at an index other than
`i` is left byte-for-byte unchanged; and the con_framework `update` on a
normalized collection rewrites the blob with only position `i` changed
(to the touched, re-serialized record). -/
theorem C10_update_frame (env : Env) (c : Contacto) (l cache : List Contacto)
    (i : Nat)
    (hfind : l.findIdx? (fun x => x.id = c.id) = some i)
    (hv : Contacto.validate c = [])
    (hnorm : ∀ r ∈ l, Contacto.Normalized r) :
    (0 < i →
      Part001.update c ⟨some l, cache⟩ =
        (true,
         ⟨some (l.set i { c with fechaCreacion := (l.getD i default).fechaCreacion }),
          l.set i { c with fechaCreacion := (l.getD i default).fechaCreacion }⟩) ∧
      Part000.update c ⟨some l, cache⟩ = Part001.update c ⟨some l, cache⟩) ∧
    (∀ (x : Contacto) (j : Nat), j ≠ i →
      (l.set i x).getD j default = l.getD j default) ∧
    ((l.set i { c with fechaCreacion := (l.getD i default).fechaCreacion }).getD
        i default).fechaCreacion = (l.getD i default).fechaCreacion ∧
    ContactRepository.update env c (.arr l) =
      (.ok (), .arr (l.set i (Contacto.toJSON (Contacto.touch env c)))) := by
  have hlen : i < l.length := by
    obtain ⟨hl, -, -⟩ := List.findIdx?_eq_some_iff_getElem.mp hfind
    exact hl
  have hidx : ContactoRepositoryLS.indiceElemento l c.id = (i : Int) := by
    simp [ContactoRepositoryLS.indiceElemento, hfind]
  refine ⟨?_, ?_, ?_, ?_⟩
  · intro hi
    constructor
    · simp only [Part001.update, Option.getD_some, hidx]
      rw [if_pos (by exact_mod_cast hi)]
      simp
    · rfl
  · intro x j hj
    rw [List.getD_eq_getElem?_getD, List.getD_eq_getElem?_getD,
      List.getElem?_set_ne (Ne.symm hj)]
  · rw [List.getD_eq_getElem?_getD, List.getElem?_set_self hlen]
    rfl
  · have hmap : l.map (Contacto.fromJSON env) = l :=
      List.map_id_of_mem l _ (fun r hr =>
        Contacto.fromJSON_of_normalized env r (hnorm r hr))
    have hmapJ : l.map Contacto.toJSON = l :=
      List.map_id_of_mem l _ (fun r hr =>
        Contacto.toJSON_of_normalized r (hnorm r hr))
    simp only [ContactRepository.update, ContactRepository.getAll]
    rw [if_neg (by simp [hv]), hmap, hfind]
    simp only [ContactRepository.saveToStorage, List.map_set, hmapJ]

/-- C10 witness: updating `cAnaMod` (id `a1`, found at index 1 of
`[cBea, cAna]`): `cBea` is untouched and the stored `fechaCreacion` of
`cAna` survives in the sin-framework variants; the con_framework variant
replaces only position 1. -/
theorem C10_witness :
    Part001.update cAnaMod ⟨some [cBea, cAna], []⟩ =
      (true,
       ⟨some [cBea, { cAnaMod with fechaCreacion := cAna.fechaCreacion }],
        [cBea, { cAnaMod with fechaCreacion := cAna.fechaCreacion }]⟩) ∧
    ContactRepository.update envB cAnaMod (.arr [cBea, cAna]) =
      (.ok (), .arr [cBea, Contacto.toJSON (Contacto.touch envB cAnaMod)]) :=
  ⟨((C10_update_frame envB cAnaMod [cBea, cAna] [] 1 (by decide) (by decide)
      (by decide)).1 (by decide)).1,
   (C10_update_frame envB cAnaMod [cBea, cAna] [] 1 (by decide) (by decide)
      (by decide)).2.2.2⟩

theorem List.map_eraseIdx_comm {α β : Type} (f : α → β) (l : List α) (i : Nat) :
    (l.eraseIdx i).map f = (l.map f).eraseIdx i := by
  induction l generalizing i with
  | nil => rfl
  | cons a rest ih =>
    cases i with
    | zero => rfl
    | succ n => simp only [List.eraseIdx_cons_succ, List.map_cons, ih]

theorem List.set_eq_self_of_getElem? {α : Type} (l : List α) (i : Nat) (a : α)
    (h : l[i]? = some a) : l.set i a = l := by
  induction l generalizing i with
  | nil => rfl
  | cons x rest ih =>
    cases i with
    | zero =>
      simp only [List.getElem?_cons_zero, Option.some.injEq] at h
      simp [List.set_cons_zero, h]
    | succ n =>
      simp only [List.getElem?_cons_succ] at h
      simp [List.set_cons_succ, ih n h]

/-- Re-serializing (`toJSON`) never changes identifiers. -/
theorem ids_map_toJSON (l : List Contacto) :
    (l.map Contacto.toJSON).map Contacto.id = l.map Contacto.id := by
  rw [List.map_map]
  exact List.map_congr_left (fun r _ => rfl)

/-- Parsing a blob whose records have nonempty ids (`fromJSON`) never
changes identifiers. -/
theorem parsed_ids (env : Env) (l : List Contacto)
    (hne : "" ∉ l.map Contacto.id) :
    (l.map (Contacto.fromJSON env)).map Contacto.id = l.map Contacto.id := by
  rw [List.map_map]
  refine List.map_congr_left (fun r hr => ?_)
  show (Contacto.fromJSON env r).id = r.id
  rw [Contacto.fromJSON_id]
  refine orDefault_of_ne _ _ (fun h0 => hne ?_)
  rw [← h0]
  exact List.mem_map_of_mem Contacto.id hr

/-- The accumulated list of the `importFromJSON` loop: the initial list
followed by the entries kept by `importPick`, in batch order. -/
theorem importStep_foldl (env : Env) (st₁ : StorageVal) (batch : List Contacto)
    (init : List Contacto) (a b k : Nat) :
    (batch.foldl (ContactRepository.importStep env st₁) (init, a, b, k)).1 =
      init ++ batch.filterMap (importPick env st₁) := by
  induction batch generalizing init a b k with
  | nil => simp
  | cons d rest ih =>
    rw [List.foldl_cons, List.filterMap_cons]
    by_cases hv : Contacto.validate (Contacto.fromJSON env d) = []
    · by_cases hdup : ((ContactRepository.getById env
          (Contacto.fromJSON env d).id st₁).1).isSome = true
      · have hstep : ContactRepository.importStep env st₁ (init, a, b, k) d =
            (init, a, b + 1, k) := by
          simp [ContactRepository.importStep, hv, hdup]
        have hpick : importPick env st₁ d = none := by
          simp [importPick, hv, hdup]
        rw [hstep, hpick, ih]
      · have hstep : ContactRepository.importStep env st₁ (init, a, b, k) d =
            (init ++ [Contacto.fromJSON env d], a + 1, b, k) := by
          simp [ContactRepository.importStep, hv, hdup]
        have hpick : importPick env st₁ d = some (Contacto.fromJSON env d) := by
          simp [importPick, hv, hdup]
        rw [hstep, hpick, ih]
        simp [List.append_assoc]
    · have hstep : ContactRepository.importStep env st₁ (init, a, b, k) d =
          (init, a, b, k + 1) := by
        simp [ContactRepository.importStep, hv]
      have hpick : importPick env st₁ d = none := by
        simp [importPick, hv]
      rw [hstep, hpick, ih]

/-- The identifiers of the records an import keeps form a sublist of the
batch's identifiers (each kept record is the parse of its batch entry,
and parsing keeps a nonempty id). -/
theorem importPick_ids_sublist (env : Env) (st₁ : StorageVal)
    (batch : List Contacto) (hbne : ∀ d ∈ batch, d.id ≠ "") :
    ((batch.filterMap (importPick env st₁)).map Contacto.id).Sublist
      (batch.map Contacto.id) := by
  induction batch with
  | nil => simp
  | cons d rest ih =>
    rw [List.filterMap_cons, List.map_cons]
    have hrest := ih (fun x hx => hbne x (List.mem_cons_of_mem _ hx))
    cases hpick : importPick env st₁ d with
    | none =>
      simp only [hpick]
      exact hrest.cons d.id
    | some c =>
      have hc : c = Contacto.fromJSON env d := by
        simp only [importPick] at hpick
        split_ifs at hpick
        exact (Option.some.injEq _ _).mp hpick.symm
      have hcid : c.id = d.id := by
        rw [hc, Contacto.fromJSON_id]
        exact orDefault_of_ne _ _ (hbne d (List.mem_cons_self d rest))
      simp only [hpick, List.map_cons, hcid]
      exact hrest.cons₂ d.id

/-- A record kept by `importPick` has an id not present in the stored
blob (that is the duplicate check of the loop). -/
theorem importPick_id_fresh (env : Env) (l : List Contacto) (d c : Contacto)
    (hpick : importPick env (.arr l) d = some c) :
    c.id ∉ (l.map (Contacto.fromJSON env)).map Contacto.id := by
  simp only [importPick] at hpick
  split_ifs at hpick with h1 h2
  obtain rfl := Option.some.inj hpick
  have hnone : ((ContactRepository.getById env
      (Contacto.fromJSON env d).id (.arr l)).1) = none :=
    Option.not_isSome_iff_eq_none.mp h2
  simp only [ContactRepository.getById, ContactRepository.getAll] at hnone
  have hall := List.find?_eq_none.mp hnone
  intro hmem
  obtain ⟨x, hx, hxid⟩ := List.mem_map.mp hmem
  have hne := hall x hx
  simp only [decide_eq_true_eq] at hne
  exact hne hxid

/-- Every repository operation with well-formed arguments preserves
`GoodStore`: the blob stays a well-formed array with pairwise-distinct,
nonempty identifiers. -/
theorem Op.exec_preserves (st : StorageVal) (op : Op)
    (hst : GoodStore st) (hwf : op.wf) : GoodStore (Op.exec st op) := by
  obtain ⟨l, rfl, hnd, hne⟩ := hst
  cases op with
  | add env c =>
    by_cases hv : Contacto.validate c = []
    · cases hfind : (l.map (Contacto.fromJSON env)).find?
          (fun x => x.id = c.id) with
      | some x =>
        refine ⟨l, ?_, hnd, hne⟩
        simp [Op.exec, ContactRepository.add, hv, ContactRepository.getById,
          ContactRepository.getAll, hfind]
      | none =>
        refine ⟨((l.map (Contacto.fromJSON env)) ++ [c]).map Contacto.toJSON,
          ?_, ?_, ?_⟩
        · simp [Op.exec, ContactRepository.add, hv, ContactRepository.getById,
            ContactRepository.getAll, ContactRepository.saveToStorage, hfind]
        · rw [ids_map_toJSON, List.map_append, parsed_ids env l hne,
            List.nodup_append]
          refine ⟨hnd, List.nodup_singleton _, ?_⟩
          intro a ha hb
          simp only [List.map_cons, List.map_nil, List.mem_singleton] at hb
          subst hb
          obtain ⟨r, hr, hrid⟩ := List.mem_map.mp ha
          have hfound := List.find?_eq_none.mp hfind (Contacto.fromJSON env r)
            (List.mem_map_of_mem _ hr)
          simp only [decide_eq_true_eq] at hfound
          apply hfound
          rw [Contacto.fromJSON_id, orDefault_of_ne _ _ (fun h0 => hne (by
            rw [← h0]; exact List.mem_map_of_mem Contacto.id hr))]
          exact hrid
        · rw [ids_map_toJSON, List.map_append, parsed_ids env l hne,
            List.mem_append]
          rintro (h | h)
          · exact hne h
          · simp only [List.map_cons, List.map_nil, List.mem_singleton] at h
            exact hwf h.symm
    · exact ⟨l, by simp [Op.exec, ContactRepository.add, hv], hnd, hne⟩
  | update env c =>
    by_cases hv : Contacto.validate c = []
    · cases hfind : (l.map (Contacto.fromJSON env)).findIdx?
          (fun x => x.id = c.id) with
      | none =>
        refine ⟨l, ?_, hnd, hne⟩
        simp [Op.exec, ContactRepository.update, hv, ContactRepository.getAll,
          hfind]
      | some i =>
        have hl' : i < l.length := by
          have hl := (List.findIdx?_eq_some_iff_getElem.mp hfind).1
          simpa using hl
        have hlid : (getElem l i hl').id = c.id := by
          obtain ⟨hl, hp, -⟩ := List.findIdx?_eq_some_iff_getElem.mp hfind
          simp only [List.getElem_map, decide_eq_true_eq,
            Contacto.fromJSON_id] at hp
          rw [orDefault_of_ne _ _ (fun h0 => hne (by
            rw [← h0]
            exact List.mem_map_of_mem Contacto.id (List.getElem_mem hl')))] at hp
          exact hp
        have hset : (l.map Contacto.id).set i (Contacto.touch env c).id =
            l.map Contacto.id := by
          apply List.set_eq_self_of_getElem?
          rw [List.getElem?_eq_getElem (by simpa using hl')]
          simp only [List.getElem_map, hlid]
          rfl
        refine ⟨((l.map (Contacto.fromJSON env)).set i
            (Contacto.touch env c)).map Contacto.toJSON, ?_, ?_, ?_⟩
        · simp [Op.exec, ContactRepository.update, hv, ContactRepository.getAll,
            ContactRepository.saveToStorage, hfind]
        · rw [ids_map_toJSON, List.map_set, parsed_ids env l hne, hset]
          exact hnd
        · rw [ids_map_toJSON, List.map_set, parsed_ids env l hne, hset]
          exact hne
    · exact ⟨l, by simp [Op.exec, ContactRepository.update, hv], hnd, hne⟩
  | remove env id =>
    cases hfind : (l.map (Contacto.fromJSON env)).findIdx?
        (fun x => x.id = id) with
    | none =>
      refine ⟨l, ?_, hnd, hne⟩
      simp [Op.exec, ContactRepository.remove, ContactRepository.getAll, hfind]
    | some i =>
      refine ⟨((l.map (Contacto.fromJSON env)).eraseIdx i).map Contacto.toJSON,
        ?_, ?_, ?_⟩
      · simp [Op.exec, ContactRepository.remove, ContactRepository.getAll,
          ContactRepository.saveToStorage, hfind]
      · rw [ids_map_toJSON, List.map_eraseIdx_comm, parsed_ids env l hne]
        exact (List.eraseIdx_sublist _ i).nodup hnd
      · rw [ids_map_toJSON, List.map_eraseIdx_comm, parsed_ids env l hne]
        intro h
        exact hne ((List.eraseIdx_sublist _ i).subset h)
  | clear =>
    exact ⟨[], by simp [Op.exec, ContactRepository.clear], by simp, by simp⟩
  | imp env batch =>
    obtain ⟨hbne, hbnd⟩ := hwf
    refine ⟨((l.map (Contacto.fromJSON env)) ++
        batch.filterMap (importPick env (.arr l))).map Contacto.toJSON,
      ?_, ?_, ?_⟩
    · simp only [Op.exec, ContactRepository.importFromJSON,
        ContactRepository.getAll, ContactRepository.saveToStorage]
      rw [importStep_foldl]
    · rw [ids_map_toJSON, List.map_append, parsed_ids env l hne,
        List.nodup_append]
      refine ⟨hnd, (importPick_ids_sublist env (.arr l) batch hbne).nodup hbnd,
        ?_⟩
      rw [List.disjoint_right]
      intro a ha hb
      obtain ⟨x, hx, rfl⟩ := List.mem_map.mp ha
      obtain ⟨d, hd, hpick⟩ := List.mem_filterMap.mp hx
      have hfr := importPick_id_fresh env l d x hpick
      rw [parsed_ids env l hne] at hfr
      exact hfr hb
    · rw [ids_map_toJSON, List.map_append, parsed_ids env l hne,
        List.mem_append]
      rintro (h | h)
      · exact hne h
      · have hsub := (importPick_ids_sublist env (.arr l) batch hbne).subset h
        obtain ⟨d, hd, hdid⟩ := List.mem_map.mp hsub
        exact hbne d hd hdid

/-- Folding well-formed operations preserves `GoodStore`. -/
theorem foldl_exec_preserves (ops : List Op) (st : StorageVal)
    (hst : GoodStore st) (hwf : ∀ op ∈ ops, op.wf) :
    GoodStore (ops.foldl Op.exec st) := by
  induction ops generalizing st with
  | nil => exact hst
  | cons op rest ih =>
    rw [List.foldl_cons]
    exact ih (Op.exec st op)
      (Op.exec_preserves st op hst (hwf op (List.mem_cons_self op rest)))
      (fun x hx => hwf x (List.mem_cons_of_mem _ hx))

/-- C7 counterexample: importing a batch whose two (valid) entries share
the identifier `a1` into the empty collection stores both — the duplicate
check of `importFromJSON` consults only the stored blob, not the batch —
so the stored collection holds two records with the same identifier,
refuting the claim as stated. -/
theorem C7_counterexample :
    runOps [Op.imp envA [cAna, { cAna with nombre := "Otra Ana" }]] =
      .arr [cAna, { cAna with nombre := "Otra Ana" }] ∧
    ¬ (([cAna, { cAna with nombre := "Otra Ana" }].map Contacto.id).Nodup) :=
  ⟨by decide, by decide⟩

/-- C7 (amended): for every sequence of con_framework repository
operations starting from the empty collection, in which every added
record has a nonempty identifier and every imported batch carries
pairwise-distinct nonempty identifiers, the stored collection never
contains two records with the same identifier. -/
theorem C7_no_duplicate_ids (ops : List Op) (hwf : ∀ op ∈ ops, op.wf) :
    ∃ l, runOps ops = .arr l ∧ (l.map Contacto.id).Nodup := by
  obtain ⟨l, h1, h2, -⟩ :=
    foldl_exec_preserves ops (.arr []) ⟨[], rfl, by simp, by simp⟩ hwf
  exact ⟨l, h1, h2⟩

/-- C7 witness: a concrete well-formed sequence — an add, a failed
duplicate add, an import, an update and a remove — ends in a collection
with pairwise-distinct identifiers. -/
theorem C7_witness :
    (∀ op ∈ [Op.add envA cAna, Op.add envB cAna, Op.imp envB [cBea, cCarl],
        Op.update envB cAnaMod, Op.remove envB "c1"], op.wf) ∧
    ∃ l, runOps [Op.add envA cAna, Op.add envB cAna, Op.imp envB [cBea, cCarl],
        Op.update envB cAnaMod, Op.remove envB "c1"] = .arr l ∧
      (l.map Contacto.id).Nodup :=
  ⟨by decide, C7_no_duplicate_ids _ (by decide)⟩
